import Mathlib

/-!
Shallow embedding of `src/prefect/utilities/processutils.py`.

The module under verification is a supervised child-process runtime built on
anyio.  We model each function as a pure Lean function producing the ordered
trace of externally observable effects (spawn calls, signal sends, sink
writes, handler installation/removal, resource closing) together with its
result.  Nondeterministic inputs of the environment — the platform, the
outcome of the guarded body, whether `process.terminate()` raises, the
scheduler's interleaving of the two output relays — are explicit parameters.
-/

namespace ProcessUtils

/-- The two platform families the source distinguishes via `sys.platform`. -/
inductive Platform where
  | win32
  | posix
deriving DecidableEq, Repr

/-- A Python value passed as the `command` argument.  The source only checks
`isinstance(command, list)`; we distinguish a list of string tokens, a plain
string, and any other (non-list) value. -/
inductive Command where
  | listCmd (toks : List String)
  | strCmd (s : String)
  | otherCmd
deriving DecidableEq, Repr

/-- `isinstance(command, list)` from `open_process`. -/
def Command.isList : Command → Bool
  | .listCmd _ => true
  | _ => false

/-- The argument actually handed to the spawn primitive (`anyio.open_process`):
on win32 the source joins the tokens into one string, elsewhere the list is
passed unchanged. -/
inductive SpawnArg where
  | argStr (s : String)
  | argList (toks : List String)
deriving DecidableEq, Repr

/-- How the `yield process` body of the `open_process` context manager exits:
normal fall-through, an exception raised inside the scope, or cancellation of
the owning task. -/
inductive BodyOutcome where
  | normal
  | exception
  | cancelled
deriving DecidableEq, Repr

/-- What `process.terminate()` (together with the win32 handler removal that
the source places in the same `try` block) does when called during release:
succeeds, raises `ProcessLookupError` (child already exited), or raises some
other exception.  The source's `except` clause catches only
`ProcessLookupError`. -/
inductive TermBehavior where
  | ok
  | lookupError
  | otherError
deriving DecidableEq, Repr

/-- Observable events of `open_process`.  `spawn` records the argument given
to `anyio.open_process` and whether `CREATE_NEW_PROCESS_GROUP` was set;
`aclose` records whether the call ran inside `anyio.CancelScope(shield=True)`. -/
inductive OpEv where
  | spawn (arg : SpawnArg) (newProcessGroup : Bool)
  | installCtrlHandler
  | runBody (outcome : BodyOutcome)
  | terminateCall
  | removeCtrlHandler
  | aclose (shielded : Bool)
deriving DecidableEq, Repr

/-- The overall result of one pass through `open_process`. -/
inductive OpenResult where
  | ok
  | typeError
  | bodyException
  | cancelled
  | termException
deriving DecidableEq, Repr

/-- Trace semantics of `open_process` (processutils.py lines 33-103).

Control flow of the source:
* `command` not a list → `raise TypeError` before anything is spawned;
* win32: tokens are space-joined, the subprocess is created with
  `CREATE_NEW_PROCESS_GROUP`, and a console CTRL-C handler is installed;
  posix: the token list is passed to `anyio.open_process` unchanged;
* the body (`yield process`) runs inside `try`/`finally`;
* the `finally` block calls `process.terminate()` and, on win32 and only
  after `terminate()` returned, removes the console handler; the whole group
  is guarded by `except ProcessLookupError: pass`, so a `ProcessLookupError`
  falls through to the close step while any other exception propagates past
  the rest of the block;
* `await process.aclose()` then runs inside `anyio.CancelScope(shield=True)`. -/
def open_process (plat : Platform) (cmd : Command) (body : BodyOutcome)
    (term : TermBehavior) : List OpEv × OpenResult :=
  match cmd with
  | .listCmd toks =>
    let spawnEvs : List OpEv :=
      match plat with
      | .win32 =>
          [.spawn (.argStr (String.intercalate " " toks)) true, .installCtrlHandler]
      | .posix => [.spawn (.argList toks) false]
    let releaseEvs : List OpEv :=
      .terminateCall ::
        (match term with
         | .ok =>
             (match plat with
              | .win32 => [.removeCtrlHandler]
              | .posix => []) ++ [.aclose true]
         | .lookupError => [.aclose true]
         | .otherError => [])
    let res : OpenResult :=
      match term with
      | .otherError => .termException
      | _ =>
        match body with
        | .normal => .ok
        | .exception => .bodyException
        | .cancelled => .cancelled
    (spawnEvs ++ .runBody body :: releaseEvs, res)
  | _ => ([], .typeError)

/-! ### Output Stream Relay (`stream_text`) and Fan-out (`consume_process_output`) -/

/-- The runtime type of a sink object, as discriminated by the `isinstance`
checks in `stream_text`.  `Option Sink` models the Python value: `none` is the
`None` sentinel ("discard"). -/
inductive Sink where
  | sendStream
  | asyncFile
  | textIOBase
  | unsupported
deriving DecidableEq, Repr

/-- Observable actions `stream_text` performs on a sink. -/
inductive SinkEv where
  | send (chunk : String)
  | write (chunk : String)
  | flush
deriving DecidableEq, Repr

/-- The pre-loop conversion in `stream_text`:
`if isinstance(sink, TextIOBase): sink = anyio.wrap_file(sink)`. -/
def wrapSink : Option Sink → Option Sink
  | some .textIOBase => some .asyncFile
  | s => s

/-- The `async for item in source:` loop body of `stream_text`, applied to the
whole (finite) chunk sequence of the source.  Per chunk: a `TextSendStream`
receives `send`; an `anyio.AsyncFile` receives `write` then `flush`; `None`
consumes the chunk with no action; anything else raises `TypeError` upon that
chunk. -/
def streamTextLoop (sink : Option Sink) : List String → Except String (List SinkEv)
  | [] => .ok []
  | c :: cs =>
    match sink with
    | some .sendStream => (streamTextLoop sink cs).map (fun r => .send c :: r)
    | some .asyncFile => (streamTextLoop sink cs).map (fun r => .write c :: .flush :: r)
    | none => streamTextLoop sink cs
    | some _ => .error "Unsupported sink type"

/-- `stream_text` (processutils.py lines 166-180): wrap a blocking
`TextIOBase` sink, then run the relay loop over the source's chunks. -/
def stream_text (chunks : List String) (sink : Option Sink) : Except String (List SinkEv) :=
  streamTextLoop (wrapSink sink) chunks

/-- The channel an event belongs to in the fan-out. -/
inductive Chan where
  | out
  | err
deriving DecidableEq, Repr

/-- One cooperative interleaving of two event sequences: each `true` choice
takes the next stdout event, each `false` the next stderr event; when either
side is exhausted the rest follows.  Per-channel order is preserved by
construction — this is exactly the guarantee the scheduler gives the two
`stream_text` tasks. -/
def interleave : List Bool → List α → List α → List α
  | [], xs, ys => xs ++ ys
  | _ :: _, [], ys => ys
  | _ :: _, x :: xs, [] => x :: xs
  | true :: bs, x :: xs, y :: ys => x :: interleave bs xs (y :: ys)
  | false :: bs, x :: xs, y :: ys => y :: interleave bs (x :: xs) ys

/-- `consume_process_output` (processutils.py lines 148-163): run
`stream_text` for stdout and stderr in one task group.  The result is the
merged, channel-tagged event sequence under a given scheduler interleaving;
if either relay raises, the task-group scope fails with that error. -/
def consume_process_output (choices : List Bool)
    (stdoutChunks stderrChunks : List String)
    (stdout_sink stderr_sink : Option Sink) :
    Except String (List (Chan × SinkEv)) :=
  match stream_text stdoutChunks stdout_sink, stream_text stderrChunks stderr_sink with
  | .ok a, .ok b =>
      .ok (interleave choices (a.map (fun e => (Chan.out, e))) (b.map (fun e => (Chan.err, e))))
  | .error e, _ => .error e
  | .ok _, .error e => .error e

/-- The sub-sequence of a merged trace delivered to the stdout sink. -/
def outDelivered (l : List (Chan × SinkEv)) : List SinkEv :=
  (l.filter (fun e => e.1 = Chan.out)).map (fun e => e.2)

/-- The sub-sequence of a merged trace delivered to the stderr sink. -/
def errDelivered (l : List (Chan × SinkEv)) : List SinkEv :=
  (l.filter (fun e => e.1 = Chan.err)).map (fun e => e.2)

/-! ### Process Runner (`run_process`) -/

/-- What a process output channel is wired to at spawn time:
`subprocess.PIPE` or `subprocess.DEVNULL`. -/
inductive PipeMode where
  | pipe
  | devnull
deriving DecidableEq, Repr

/-- The `stream_output` argument of `run_process`: a boolean or a pair of
optional sinks (either side `none` meaning "discard"). -/
inductive StreamOutput where
  | bool (v : Bool)
  | sinks (out err : Option Sink)
deriving DecidableEq, Repr

/-- Python truthiness of a `stream_output` value: `False` is falsy, `True` is
truthy, and a 2-tuple is always truthy (even `(None, None)`). -/
def StreamOutput.truthy : StreamOutput → Bool
  | .bool v => v
  | .sinks _ _ => true

/-- `if stream_output is True: stream_output = (sys.stdout, sys.stderr)`.
`sys.stdout`/`sys.stderr` are blocking `TextIOBase` objects. -/
def normalizeStreamOutput : StreamOutput → StreamOutput
  | .bool true => .sinks (some .textIOBase) (some .textIOBase)
  | s => s

/-- The stdout sink a (normalized) `stream_output` value designates;
`none` is the "discard" sentinel. -/
def stdoutSinkOf : StreamOutput → Option Sink
  | .bool _ => none
  | .sinks o _ => o

/-- The stderr sink a (normalized) `stream_output` value designates. -/
def stderrSinkOf : StreamOutput → Option Sink
  | .bool _ => none
  | .sinks _ e => e

/-- The `stdout=`/`stderr=` keyword pair `run_process` passes to
`open_process`: `subprocess.PIPE if stream_output else subprocess.DEVNULL`
for each channel. -/
def pipeConfig (so : StreamOutput) : PipeMode × PipeMode :=
  ((if so.truthy then .pipe else .devnull), (if so.truthy then .pipe else .devnull))

/-- The child process handle as `run_process` observes it: its pid and the
chunk sequences its two piped channels will yield. -/
structure Process where
  pid : Nat
  stdoutChunks : List String
  stderrChunks : List String
deriving DecidableEq, Repr

/-- Observable events of `run_process`, beyond those of `open_process`:
the spawn (with its pipe wiring), the single `task_status.started(...)` call
with the value it receives, each sink delivery, and the final
`process.wait()`. -/
inductive RunEv where
  | spawn (cfg : PipeMode × PipeMode)
  | started (v : Nat)
  | chunk (c : Chan) (e : SinkEv)
  | waited
deriving DecidableEq, Repr

/-- Errors `run_process` can surface. -/
inductive RunErr where
  | typeError
  | sinkError (msg : String)
deriving DecidableEq, Repr

/-- `task_status_handler(process)` with the source's default
`lambda process: process.pid` when no handler was supplied. -/
def applyHandler (handler : Option (Process → Nat)) (p : Process) : Nat :=
  match handler with
  | some f => f p
  | none => p.pid

/-- Trace semantics of `run_process` (processutils.py lines 106-145).

Control flow of the source:
* `stream_output is True` is replaced by the pair `(sys.stdout, sys.stderr)`;
* `open_process` is entered with both channels piped iff `stream_output` is
  truthy (else both wired to `DEVNULL`) — a non-list command therefore raises
  `TypeError` there, before any spawn;
* inside the guard, if `task_status` was supplied, `task_status.started` is
  called once with `task_status_handler(process)` (pid by default);
* if `stream_output` is truthy, `consume_process_output` relays both channels
  (under some scheduler interleaving `choices`); a relay `TypeError` fails the
  scope there;
* finally `process.wait()` runs.

The returned trace lists the events that occurred; the `Option RunErr` is the
exception, if any, propagating out. -/
def run_process (cmd : Command) (so : StreamOutput) (task_status : Bool)
    (task_status_handler : Option (Process → Nat)) (p : Process)
    (choices : List Bool) : List RunEv × Option RunErr :=
  match cmd with
  | .listCmd _ =>
    let so' := normalizeStreamOutput so
    let pre : List RunEv :=
      .spawn (pipeConfig so') ::
        (if task_status then [.started (applyHandler task_status_handler p)] else [])
    if so'.truthy then
      match consume_process_output choices p.stdoutChunks p.stderrChunks
          (stdoutSinkOf so') (stderrSinkOf so') with
      | .ok evs => (pre ++ evs.map (fun e => .chunk e.1 e.2) ++ [.waited], none)
      | .error msg => (pre, some (.sinkError msg))
    else
      (pre ++ [.waited], none)
  | _ => ([], some .typeError)

/-! ### Interrupt Escalation Handler (`kill_on_interrupt`) -/

/-- The signals the handler sends. -/
inductive SigName where
  | SIGTERM
  | SIGKILL
  | CTRL_BREAK_EVENT
deriving DecidableEq, Repr

/-- Which closure is installed as the process-wide `SIGINT` disposition on a
posix platform: `kill_on_interrupt` installs `stop_process` (state `normal`);
`stop_process` reinstalls `kill_process` (state `terminating`). -/
inductive IntrState where
  | normal
  | terminating
deriving DecidableEq, Repr

/-- Observable effects of one interrupt delivery. -/
inductive SigEv where
  | printMsg (s : String)
  | osKill (pid : Nat) (sig : SigName)
  | setSigintDisposition (st : IntrState)
deriving DecidableEq, Repr

/-- Whether `os.kill(pid, ...)` succeeds when the handler runs; it raises
(e.g. `ProcessLookupError`) when no process with that pid exists. -/
inductive KillOutcome where
  | ok
  | raises
deriving DecidableEq, Repr

/-- One interrupt delivery on a posix platform (processutils.py lines
196-207).  In state `normal` the installed handler is `stop_process`: it
prints `"\nStopping <name>..."`, calls `os.kill(pid, SIGTERM)`, and only then
executes `signal.signal(SIGINT, kill_process)`; if `os.kill` raises, that
line is never reached and the disposition is unchanged.  In state
`terminating` the installed handler is `kill_process`: it prints
`"\nKilling <name>..."` and calls `os.kill(pid, SIGKILL)`, leaving the
disposition alone.  The results are the events, the new disposition, and
whether the handler raised. -/
def posixInterruptStep (pid : Nat) (process_name : String) (k : KillOutcome) :
    IntrState → List SigEv × IntrState × Bool
  | .normal =>
    match k with
    | .ok =>
        ([.printMsg ("\nStopping " ++ process_name ++ "..."),
          .osKill pid .SIGTERM,
          .setSigintDisposition .terminating], .terminating, false)
    | .raises =>
        ([.printMsg ("\nStopping " ++ process_name ++ "...")], .normal, true)
  | .terminating =>
    match k with
    | .ok =>
        ([.printMsg ("\nKilling " ++ process_name ++ "..."),
          .osKill pid .SIGKILL], .terminating, false)
    | .raises =>
        ([.printMsg ("\nKilling " ++ process_name ++ "...")], .terminating, true)

/-- One interrupt delivery on win32 (processutils.py lines 190-194): the sole
handler `stop_process` prints `"\nStopping <name>..."` and sends
`CTRL_BREAK_EVENT`; it never changes the `SIGINT` disposition, so the state
is terminal. -/
def win32InterruptStep (pid : Nat) (process_name : String) (k : KillOutcome) :
    List SigEv × Bool :=
  match k with
  | .ok =>
      ([.printMsg ("\nStopping " ++ process_name ++ "..."),
        .osKill pid .CTRL_BREAK_EVENT], false)
  | .raises =>
      ([.printMsg ("\nStopping " ++ process_name ++ "...")], true)

/-- `kill_on_interrupt` itself (line 207): `signal.signal(SIGINT,
stop_process)` — the machine starts in state `normal`. -/
def kill_on_interrupt : IntrState := .normal

/-! ### Helper lemmas -/

/-- A clearly spec-side definition, following the spec's words, for the
refinement check of the Output Stream Relay: the delivery owed to each
recognized sink for a FIFO chunk sequence — `send` per chunk to a stream
abstraction, `write` followed immediately by `flush` per chunk to a blocking
file/stream, and nothing to "discard". -/
def specFifoDelivery (chunks : List String) : Option Sink → List SinkEv
  | some .sendStream => chunks.map .send
  | some .asyncFile => chunks.flatMap fun c => [.write c, .flush]
  | some .textIOBase => chunks.flatMap fun c => [.write c, .flush]
  | _ => []

theorem streamTextLoop_sendStream (chunks : List String) :
    streamTextLoop (some .sendStream) chunks = .ok (chunks.map .send) := by
  induction chunks with
  | nil => rfl
  | cons c cs ih => simp [streamTextLoop, ih, Except.map]

theorem streamTextLoop_asyncFile (chunks : List String) :
    streamTextLoop (some .asyncFile) chunks
      = .ok (chunks.flatMap fun c => [.write c, .flush]) := by
  induction chunks with
  | nil => rfl
  | cons c cs ih => simp [streamTextLoop, ih, Except.map]

theorem streamTextLoop_discard (chunks : List String) :
    streamTextLoop none chunks = .ok [] := by
  induction chunks with
  | nil => rfl
  | cons c cs ih => simp [streamTextLoop, ih]

theorem interleave_filter (p : α → Bool) :
    ∀ (bs : List Bool) (xs ys : List α),
      (∀ x ∈ xs, p x = true) → (∀ y ∈ ys, p y = false) →
      (interleave bs xs ys).filter p = xs := by
  intro bs
  induction bs with
  | nil =>
    intro xs ys hx hy
    simp only [interleave, List.filter_append]
    rw [List.filter_eq_self.mpr hx, List.filter_eq_nil_iff.mpr (fun y hy' => by simp [hy y hy']),
      List.append_nil]
  | cons b bs ih =>
    intro xs ys hx hy
    cases xs with
    | nil =>
      simp only [interleave]
      exact List.filter_eq_nil_iff.mpr (fun y hy' => by simp [hy y hy'])
    | cons x xs' =>
      cases ys with
      | nil =>
        simp only [interleave]
        exact List.filter_eq_self.mpr hx
      | cons y ys' =>
        cases b with
        | true =>
          simp only [interleave, List.filter_cons, hx x (List.mem_cons_self x xs'), if_pos]
          rw [ih xs' (y :: ys') (fun a ha => hx a (List.mem_cons_of_mem x ha)) hy]
        | false =>
          have hpy : p y = false := hy y (List.mem_cons_self y ys')
          simp only [interleave, List.filter_cons, hpy, Bool.false_eq_true, if_false]
          rw [ih (x :: xs') ys' hx (fun a ha => hy a (List.mem_cons_of_mem y ha))]

theorem interleave_filter_right (p : α → Bool) :
    ∀ (bs : List Bool) (xs ys : List α),
      (∀ x ∈ xs, p x = false) → (∀ y ∈ ys, p y = true) →
      (interleave bs xs ys).filter p = ys := by
  intro bs
  induction bs with
  | nil =>
    intro xs ys hx hy
    simp only [interleave, List.filter_append]
    rw [List.filter_eq_nil_iff.mpr (fun x hx' => by simp [hx x hx']),
      List.filter_eq_self.mpr hy, List.nil_append]
  | cons b bs ih =>
    intro xs ys hx hy
    cases xs with
    | nil =>
      simp only [interleave]
      exact List.filter_eq_self.mpr hy
    | cons x xs' =>
      cases ys with
      | nil =>
        simp only [interleave]
        exact List.filter_eq_nil_iff.mpr (fun a ha => by simp [hx a ha])
      | cons y ys' =>
        cases b with
        | true =>
          have hpx : p x = false := hx x (List.mem_cons_self x xs')
          simp only [interleave, List.filter_cons, hpx, Bool.false_eq_true, if_false]
          rw [ih xs' (y :: ys') (fun a ha => hx a (List.mem_cons_of_mem x ha)) hy]
        | false =>
          simp only [interleave, List.filter_cons, hy y (List.mem_cons_self y ys'), if_pos]
          rw [ih (x :: xs') ys' hx (fun a ha => hy a (List.mem_cons_of_mem y ha))]

theorem outDelivered_interleave (bs : List Bool) (a b : List SinkEv) :
    outDelivered
      (interleave bs (a.map fun e => (Chan.out, e)) (b.map fun e => (Chan.err, e))) = a := by
  unfold outDelivered
  rw [interleave_filter]
  · simp
  · intro x hx
    simp only [List.mem_map] at hx
    obtain ⟨e, _, rfl⟩ := hx
    simp
  · intro y hy
    simp only [List.mem_map] at hy
    obtain ⟨e, _, rfl⟩ := hy
    simp

theorem errDelivered_interleave (bs : List Bool) (a b : List SinkEv) :
    errDelivered
      (interleave bs (a.map fun e => (Chan.out, e)) (b.map fun e => (Chan.err, e))) = b := by
  unfold errDelivered
  rw [interleave_filter_right]
  · simp
  · intro x hx
    simp only [List.mem_map] at hx
    obtain ⟨e, _, rfl⟩ := hx
    simp
  · intro y hy
    simp only [List.mem_map] at hy
    obtain ⟨e, _, rfl⟩ := hy
    simp

/-- Discriminator for `task_status.started` events in a `run_process` trace. -/
def isStarted : RunEv → Bool
  | .started _ => true
  | _ => false

theorem stream_text_recognized (chunks : List String) (sink : Option Sink)
    (h : sink ≠ some .unsupported) :
    stream_text chunks sink = .ok (specFifoDelivery chunks sink) := by
  match sink with
  | some .sendStream => exact streamTextLoop_sendStream chunks
  | some .asyncFile => exact streamTextLoop_asyncFile chunks
  | some .textIOBase => exact streamTextLoop_asyncFile chunks
  | none => exact streamTextLoop_discard chunks
  | some .unsupported => exact absurd rfl h

/-! ### Claim theorems -/

/-- C1, counterexample: the claim says the resource-release step
(`process.aclose`) runs even if the graceful-termination step raised an
exception.  At the concrete input — posix platform, command
`["sleep", "60"]`, normal body exit, `terminate()` raising an exception other
than `ProcessLookupError` — the release path reaches the termination call but
never reaches `aclose`, because the `except` clause catches only
`ProcessLookupError`. -/
theorem c1_aclose_skipped_on_terminate_exception :
    OpEv.terminateCall ∈ (open_process .posix (.listCmd ["sleep", "60"]) .normal .otherError).1 ∧
    OpEv.aclose true ∉ (open_process .posix (.listCmd ["sleep", "60"]) .normal .otherError).1 := by
  decide

/-- C1, amended: for every exit path from `open_process`'s scope (normal
exit, exception in the scope, or cancellation of the owning task), the
release path runs the graceful-termination call and then releases the
handle's OS resources (`process.aclose`) with cancellation shielded; the
resource-release step runs even if the graceful-termination step raised
`ProcessLookupError` — but an exception of any other kind from the
termination step propagates and skips the release step. -/
theorem c1_release_path_runs_terminate_then_shielded_aclose
    (plat : Platform) (toks : List String) (body : BodyOutcome) (term : TermBehavior)
    (h : term ≠ .otherError) :
    ∃ pre mid, (open_process plat (.listCmd toks) body term).1
      = pre ++ OpEv.terminateCall :: mid ++ [OpEv.aclose true] := by
  cases plat <;> cases term <;> cases body <;>
    first
    | exact absurd rfl h
    | exact ⟨[.spawn (.argStr (String.intercalate " " toks)) true, .installCtrlHandler,
        .runBody _], [.removeCtrlHandler], rfl⟩
    | exact ⟨[.spawn (.argStr (String.intercalate " " toks)) true, .installCtrlHandler,
        .runBody _], [], rfl⟩
    | exact ⟨[.spawn (.argList toks) false, .runBody _], [.removeCtrlHandler], rfl⟩
    | exact ⟨[.spawn (.argList toks) false, .runBody _], [], rfl⟩

/-- C1, witness for the amended theorem at a concrete input. -/
theorem c1_witness :
    TermBehavior.lookupError ≠ TermBehavior.otherError ∧
    ∃ pre mid, (open_process .posix (.listCmd ["echo", "hi"]) .cancelled .lookupError).1
      = pre ++ OpEv.terminateCall :: mid ++ [OpEv.aclose true] :=
  ⟨by decide,
   c1_release_path_runs_terminate_then_shielded_aclose .posix ["echo", "hi"]
     .cancelled .lookupError (by decide)⟩

/-- C2: for every command value that is not a list of tokens (including a
single string), both `open_process` and `run_process` raise `TypeError`
immediately: the result carries the error and the trace of observable events
is empty — in particular no spawn occurred. -/
theorem c2_non_list_command_fails_before_spawn
    (plat : Platform) (cmd : Command) (body : BodyOutcome) (term : TermBehavior)
    (so : StreamOutput) (ts : Bool) (handler : Option (Process → Nat))
    (p : Process) (choices : List Bool)
    (h : cmd.isList = false) :
    open_process plat cmd body term = ([], .typeError) ∧
    run_process cmd so ts handler p choices = ([], some .typeError) := by
  cases cmd with
  | listCmd toks => simp [Command.isList] at h
  | strCmd s => exact ⟨rfl, rfl⟩
  | otherCmd => exact ⟨rfl, rfl⟩

/-- C2, witness: a single string command fails fast with `TypeError` and no
spawn side effect. -/
theorem c2_witness :
    (Command.strCmd "echo hi").isList = false ∧
    (open_process .posix (.strCmd "echo hi") .normal .ok = ([], .typeError) ∧
     run_process (.strCmd "echo hi") (.bool false) false none
       ⟨1, [], []⟩ [] = ([], some .typeError)) :=
  ⟨by decide,
   c2_non_list_command_fails_before_spawn .posix (.strCmd "echo hi") .normal .ok
     (.bool false) false none ⟨1, [], []⟩ [] (by decide)⟩

/-- C7: the code contradicts the claim at this input.  On win32 the console
interrupt handler is installed at acquisition, but its removal sits after
`process.terminate()` inside the `try` block whose `except ProcessLookupError`
clause jumps past it: when the child has already exited at release time
(terminate raises `ProcessLookupError`), the handler is never removed. -/
theorem c7_ctrl_handler_not_removed_when_child_already_exited :
    OpEv.installCtrlHandler
        ∈ (open_process .win32 (.listCmd ["prefect", "agent"]) .normal .lookupError).1 ∧
    OpEv.removeCtrlHandler
        ∉ (open_process .win32 (.listCmd ["prefect", "agent"]) .normal .lookupError).1 := by
  decide

/-- C8: on win32 the spawn primitive receives the space-join of the command
tokens (with `CREATE_NEW_PROCESS_GROUP` set); on posix it receives the token
list unchanged — for every body outcome and termination behavior, and the
spawn is the first observable event. -/
theorem c8_win32_joins_tokens_posix_passes_list
    (toks : List String) (body : BodyOutcome) (term : TermBehavior) :
    (open_process .win32 (.listCmd toks) body term).1.head?
        = some (.spawn (.argStr (String.intercalate " " toks)) true) ∧
    (open_process .posix (.listCmd toks) body term).1.head?
        = some (.spawn (.argList toks) false) := by
  cases term <;> cases body <;> exact ⟨rfl, rfl⟩

/-- C3: for every finite chunk sequence and every recognized sink, the relay
delivers each chunk exactly once in FIFO order with the sink-specific action
(`send` to a stream abstraction; `write` then immediate `flush` to a blocking
file/stream; nothing to "discard"); and for any scheduler interleaving of the
fan-out, a streaming run delivers all stdout chunks and all stderr chunks to
their respective sinks in per-channel order. -/
theorem c3_relay_delivers_every_chunk_fifo
    (chunks : List String) (sink : Option Sink) (hsink : sink ≠ some .unsupported)
    (choices : List Bool) (outChunks errChunks : List String)
    (outSink errSink : Option Sink)
    (hOut : outSink ≠ some .unsupported) (hErr : errSink ≠ some .unsupported) :
    stream_text chunks sink = .ok (specFifoDelivery chunks sink) ∧
    ∃ evs, consume_process_output choices outChunks errChunks outSink errSink = .ok evs ∧
      outDelivered evs = specFifoDelivery outChunks outSink ∧
      errDelivered evs = specFifoDelivery errChunks errSink := by
  refine ⟨stream_text_recognized chunks sink hsink, ?_⟩
  have ho := stream_text_recognized outChunks outSink hOut
  have he := stream_text_recognized errChunks errSink hErr
  refine ⟨interleave choices
      ((specFifoDelivery outChunks outSink).map fun e => (Chan.out, e))
      ((specFifoDelivery errChunks errSink).map fun e => (Chan.err, e)), ?_, ?_, ?_⟩
  · simp only [consume_process_output, ho, he]
  · exact outDelivered_interleave choices _ _
  · exact errDelivered_interleave choices _ _

/-- C3, witness at concrete inputs: two stdout lines into a blocking file
sink and one stderr line into a stream-abstraction sink, under a concrete
interleaving. -/
theorem c3_witness :
    (some Sink.sendStream ≠ some Sink.unsupported) ∧
    (some Sink.textIOBase ≠ some Sink.unsupported) ∧
    (some Sink.sendStream ≠ some Sink.unsupported) ∧
    (stream_text ["hello\n"] (some .sendStream)
        = .ok (specFifoDelivery ["hello\n"] (some .sendStream)) ∧
      ∃ evs, consume_process_output [true, false] ["a\n", "b\n"] ["e\n"]
          (some .textIOBase) (some .sendStream) = .ok evs ∧
        outDelivered evs = specFifoDelivery ["a\n", "b\n"] (some .textIOBase) ∧
        errDelivered evs = specFifoDelivery ["e\n"] (some .sendStream)) :=
  ⟨by decide, by decide, by decide,
   c3_relay_delivers_every_chunk_fifo ["hello\n"] (some .sendStream) (by decide)
     [true, false] ["a\n", "b\n"] ["e\n"] (some .textIOBase) (some .sendStream)
     (by decide) (by decide)⟩

/-- C4: the interrupt escalation handler is a two-state machine.
`kill_on_interrupt` installs the NORMAL-state handler; on posix, an interrupt
in NORMAL prints "Stopping <name>", sends `SIGTERM` to the pid and moves to
TERMINATING; every further interrupt in TERMINATING prints "Killing <name>",
sends `SIGKILL` and stays in TERMINATING.  On win32 there is no two-tier
model: an interrupt prints "Stopping <name>" and sends the group-interrupt
signal `CTRL_BREAK_EVENT`, and the state is terminal (the step never changes
the disposition). -/
theorem c4_interrupt_escalation_state_machine (pid : Nat) (name : String) :
    kill_on_interrupt = IntrState.normal ∧
    posixInterruptStep pid name .ok .normal
      = ([.printMsg ("\nStopping " ++ name ++ "..."), .osKill pid .SIGTERM,
          .setSigintDisposition .terminating], .terminating, false) ∧
    posixInterruptStep pid name .ok .terminating
      = ([.printMsg ("\nKilling " ++ name ++ "..."), .osKill pid .SIGKILL],
          .terminating, false) ∧
    win32InterruptStep pid name .ok
      = ([.printMsg ("\nStopping " ++ name ++ "..."),
          .osKill pid .CTRL_BREAK_EVENT], false) :=
  ⟨rfl, rfl, rfl, rfl⟩

/-- C5: whenever `task_status` is supplied to `run_process` (with a list
command), the started callback fires exactly once — the trace is the spawn,
then the single `started` event carrying `task_status_handler(process)` (the
pid by default), then a remainder containing no further `started` event; in
particular the callback fires strictly after the spawn and strictly before
any chunk is relayed to any sink. -/
theorem c5_task_status_started_once_after_spawn_before_chunks
    (toks : List String) (so : StreamOutput) (handler : Option (Process → Nat))
    (p : Process) (choices : List Bool) :
    ∃ rest, (run_process (.listCmd toks) so true handler p choices).1
        = .spawn (pipeConfig (normalizeStreamOutput so))
            :: .started (applyHandler handler p) :: rest
      ∧ rest.filter isStarted = [] := by
  cases htr : (normalizeStreamOutput so).truthy with
  | false =>
    refine ⟨[.waited], ?_, rfl⟩
    simp [run_process, htr]
  | true =>
    cases hc : consume_process_output choices p.stdoutChunks p.stderrChunks
        (stdoutSinkOf (normalizeStreamOutput so))
        (stderrSinkOf (normalizeStreamOutput so)) with
    | error msg =>
      refine ⟨[], ?_, rfl⟩
      simp [run_process, htr, hc]
    | ok evs =>
      refine ⟨evs.map (fun e => .chunk e.1 e.2) ++ [.waited], ?_, ?_⟩
      · simp [run_process, htr, hc]
      · refine List.filter_eq_nil_iff.mpr ?_
        intro a ha
        simp only [List.mem_append, List.mem_map, List.mem_singleton] at ha
        rcases ha with ⟨e, _, rfl⟩ | rfl <;> simp [isStarted]

/-- C6, counterexample: the claim says piping is enabled on a channel iff
that channel has a non-discard sink.  At the concrete input
`stream_output = (None, None)` — a truthy tuple whose stdout sink is the
discard sentinel — the stdout channel is nevertheless piped. -/
theorem c6_counterexample_discard_sink_still_piped :
    ¬ ((pipeConfig (normalizeStreamOutput (.sinks none none))).1 = PipeMode.pipe
        ↔ stdoutSinkOf (normalizeStreamOutput (.sinks none none)) ≠ none) := by
  decide

/-- C6, amended: `run_process` pipes both channels iff `stream_output` is
truthy — a boolean `True` or any explicit sink pair, even one designating
discard for a channel, pipes both stdout and stderr — while a falsy
`stream_output` wires both channels to `DEVNULL` and streams no output (its
trace contains no chunk event). -/
theorem c6_piping_iff_truthy_stream_output
    (so : StreamOutput) (toks : List String) (ts : Bool)
    (handler : Option (Process → Nat)) (p : Process) (choices : List Bool) :
    pipeConfig (normalizeStreamOutput so)
      = (if so.truthy then (.pipe, .pipe) else (.devnull, .devnull)) ∧
    run_process (.listCmd toks) (.bool false) ts handler p choices
      = (.spawn (.devnull, .devnull)
          :: ((if ts then [.started (applyHandler handler p)] else []) ++ [.waited]),
         none) := by
  constructor
  · rcases so with v | ⟨o, e⟩
    · cases v <;> rfl
    · rfl
  · cases ts <;> rfl

/-- C9: the unsupported-sink `TypeError` in `stream_text` is raised lazily,
per chunk: with an unrecognized sink the relay completes normally when the
source yields no chunks, and fails exactly when the first chunk arrives. -/
theorem c9_unsupported_sink_error_is_lazy :
    stream_text [] (some .unsupported) = .ok [] ∧
    ∀ (c : String) (cs : List String),
      stream_text (c :: cs) (some .unsupported) = .error "Unsupported sink type" :=
  ⟨rfl, fun _ _ => rfl⟩

/-- C10: on posix the NORMAL-state handler sends `SIGTERM` strictly before
replacing the `SIGINT` disposition with the forceful handler; hence when
`os.kill` raises (pid no longer exists) the exception propagates out of the
handler, the disposition is untouched and the machine stays in NORMAL, so a
subsequent interrupt behaves exactly as a first one — attempting graceful
termination again rather than a forceful kill. -/
theorem c10_failed_sigterm_leaves_state_normal (pid : Nat) (name : String) (k : KillOutcome) :
    (posixInterruptStep pid name .ok .normal).1
      = [.printMsg ("\nStopping " ++ name ++ "..."), .osKill pid .SIGTERM,
         .setSigintDisposition .terminating] ∧
    posixInterruptStep pid name .raises .normal
      = ([.printMsg ("\nStopping " ++ name ++ "...")], .normal, true) ∧
    posixInterruptStep pid name k (posixInterruptStep pid name .raises .normal).2.1
      = posixInterruptStep pid name k .normal :=
  ⟨rfl, rfl, rfl⟩

end ProcessUtils
